import Mathlib

/-!
Shallow embedding of the `LLJS::Threading` subsystem of lowleveljs
(the concurrency-primitives translation unit): the three global handle
counters, the three global registries (`threads`, `mutexes`, `semaphores`)
and the exported operations `CreateThread`, `JoinThread`, `DetachThread`,
`CreateMutex`, `LockMutex`, `UnlockMutex`, `CreateSemaphore`,
`WaitSemaphore`, `SignalSemaphore`, modelled as pure state-passing
functions over a single `ThreadingState`.

Modelling conventions:
* every operation is executed atomically (the source holds `globalMutex`
  around registry access), so the embedding is a sequential step semantics;
* calls that can block forever in a single-caller execution (`LockMutex`
  and `WaitSemaphore` with infinite timeout on an unavailable primitive)
  return `Option`, with `none` for "blocks";
* the `uint64_t` handle counters are `Nat` reduced modulo `2 ^ 64`;
  C `int` values are `Int`;
* a mutex's `locked` flag models the held state of the native mutex
  (held by a thread other than the caller when a lock attempt fails);
  re-entrant locking by the owner of a recursive mutex is not modelled,
  no claim concerns it;
* a semaphore carries both the OS primitive's own count (`osCount`,
  which decides whether a wait succeeds) and the `currentCount` mirror
  kept by the source in `SemaphoreInfo::currentCount`;
* `sem_post` / `ReleaseSemaphore` on a valid semaphore succeeds.
-/

namespace LLJS

/-- L bound of the 64-bit handle counters (`std::atomic<uint64_t>`). -/
def U64 : Nat := 2 ^ 64

/-- Handle allocation as performed by `++threadCounter`, `++mutexCounter`
and `++semaphoreCounter`: increment modulo `2 ^ 64`; the incremented value
is the freshly issued id. -/
def nextHandle (counter : Nat) : Nat := (counter + 1) % U64

/-- Entry of the `threads` registry (`struct ThreadInfo`). -/
structure ThreadInfo where
  id : Nat
  running : Bool
  exitCode : Int
  joinable : Bool
deriving DecidableEq

/-- Entry of the `mutexes` registry (`struct MutexInfo`); `locked` models
the held state of the owned native mutex. -/
structure MutexInfo where
  id : Nat
  isRecursive : Bool
  locked : Bool
deriving DecidableEq

/-- Entry of the `semaphores` registry (`struct SemaphoreInfo`);
`osCount` is the OS primitive's count, `currentCount` the atomic mirror. -/
structure SemaphoreInfo where
  id : Nat
  maxCount : Int
  currentCount : Int
  osCount : Nat
deriving DecidableEq

/-- Errors of the spec's handle-error taxonomy.  The source only ever
produces the `notFound` outcome (thrown as "Invalid thread handle"). -/
inductive HandleError where
  | notFound
  | alreadyConsumed
  | notJoinable
deriving DecidableEq

/-- Result of `JoinThread`: the joined thread's exit code, or an error. -/
inductive JoinResult where
  | ok (exitCode : Int)
  | error (e : HandleError)
deriving DecidableEq

/-- Parameter-validation failure of `CreateSemaphore`
(thrown as "Invalid semaphore parameters"). -/
inductive ValidationError where
  | invalidParams
deriving DecidableEq

/-- Result of `CreateSemaphore`: a handle id, or a validation error. -/
inductive CreateSemResult where
  | ok (handleId : Nat)
  | error (e : ValidationError)
deriving DecidableEq

/-- Lookup in a registry map (`std::map::find`). -/
def mapFind {α : Type} (k : Nat) : List (Nat × α) → Option α
  | [] => none
  | p :: rest => if p.1 = k then some p.2 else mapFind k rest

/-- Removal from a registry map (`std::map::erase`). -/
def mapErase {α : Type} (k : Nat) : List (Nat × α) → List (Nat × α)
  | [] => []
  | p :: rest => if p.1 = k then mapErase k rest else p :: mapErase k rest

/-- Insertion into a registry map (`std::map::operator[] = ...`,
which overwrites any entry already stored under the key). -/
def mapInsert {α : Type} (k : Nat) (v : α) (l : List (Nat × α)) : List (Nat × α) :=
  (k, v) :: mapErase k l

/-- The global state of the translation unit: the three handle counters
and the three registries guarded by `globalMutex`. -/
structure ThreadingState where
  threadCounter : Nat
  mutexCounter : Nat
  semaphoreCounter : Nat
  threads : List (Nat × ThreadInfo)
  mutexes : List (Nat × MutexInfo)
  semaphores : List (Nat × SemaphoreInfo)
deriving DecidableEq

/-- The state at process start: counters at zero, registries empty. -/
def initState : ThreadingState := ⟨0, 0, 0, [], [], []⟩

/-- `CreateThread`: issues the id with `++threadCounter`, spawns the worker
(the JS callback body does not touch the registry), stores a fresh
`ThreadInfo` (`running = true`, `exitCode = 0`, joinable thread) and
returns the handle id. -/
def CreateThread (s : ThreadingState) : Nat × ThreadingState :=
  let id := nextHandle s.threadCounter
  (id, { s with threadCounter := id,
                threads := mapInsert id ⟨id, true, 0, true⟩ s.threads })

/-- `JoinThread`: looks the handle up; unknown handle throws
"Invalid thread handle" (modelled as `.error .notFound`); otherwise joins
(blocking until the worker finishes — which it does in a sequential
execution), erases the entry and returns the recorded exit code. -/
def JoinThread (s : ThreadingState) (id : Nat) : JoinResult × ThreadingState :=
  match mapFind id s.threads with
  | none => (.error .notFound, s)
  | some t => (.ok t.exitCode, { s with threads := mapErase id s.threads })

/-- `DetachThread`: unknown handle returns `false`; otherwise detaches the
native thread, erases the entry and returns `true`. -/
def DetachThread (s : ThreadingState) (id : Nat) : Bool × ThreadingState :=
  match mapFind id s.threads with
  | none => (false, s)
  | some _ => (true, { s with threads := mapErase id s.threads })

/-- `CreateMutex`: issues the id with `++mutexCounter` and stores a fresh
(unlocked) recursive or non-recursive mutex. -/
def CreateMutex (s : ThreadingState) (recursive : Bool) : Nat × ThreadingState :=
  let id := nextHandle s.mutexCounter
  (id, { s with mutexCounter := id,
                mutexes := mapInsert id ⟨id, recursive, false⟩ s.mutexes })

/-- `LockMutex`: unknown handle returns `false` (no error is raised);
`timeout = -1` means a blocking `lock()` (which never returns, `none`, if
the mutex stays held by another thread); any other timeout is a
`try_lock_for` that yields `false` when the mutex is not acquired within
the window and `true` when it is acquired. -/
def LockMutex (s : ThreadingState) (id : Nat) (timeout : Int) :
    Option (Bool × ThreadingState) :=
  match mapFind id s.mutexes with
  | none => some (false, s)
  | some m =>
    if m.locked then
      if timeout = -1 then none
      else some (false, s)
    else
      some (true, { s with mutexes := mapInsert id { m with locked := true } s.mutexes })

/-- `UnlockMutex`: unknown handle returns `false`; otherwise unlocks the
native mutex and returns `true`. -/
def UnlockMutex (s : ThreadingState) (id : Nat) : Bool × ThreadingState :=
  match mapFind id s.mutexes with
  | none => (false, s)
  | some m => (true, { s with mutexes := mapInsert id { m with locked := false } s.mutexes })

/-- `CreateSemaphore`: validates `initialCount < 0 || maxCount <= 0 ||
initialCount > maxCount` before doing anything else (throwing "Invalid
semaphore parameters"); on success issues the id with `++semaphoreCounter`
and stores a semaphore whose OS count and mirror both start at
`initialCount`. -/
def CreateSemaphore (s : ThreadingState) (initialCount maxCount : Int) :
    CreateSemResult × ThreadingState :=
  if initialCount < 0 ∨ maxCount ≤ 0 ∨ initialCount > maxCount then
    (.error .invalidParams, s)
  else
    let id := nextHandle s.semaphoreCounter
    (.ok id,
     { s with semaphoreCounter := id,
              semaphores := mapInsert id ⟨id, maxCount, initialCount, initialCount.toNat⟩
                s.semaphores })

/-- `WaitSemaphore`: unknown handle returns `false`; when the OS count is
positive the wait succeeds at once, decrementing the OS count and the
`currentCount` mirror; otherwise a blocking wait (`timeout = -1`) blocks
forever in a single-caller execution (`none`) and a timed wait expires and
returns `false`. -/
def WaitSemaphore (s : ThreadingState) (id : Nat) (timeout : Int) :
    Option (Bool × ThreadingState) :=
  match mapFind id s.semaphores with
  | none => some (false, s)
  | some sem =>
    if 0 < sem.osCount then
      let sem' := { sem with osCount := sem.osCount - 1,
                             currentCount := sem.currentCount - 1 }
      some (true, { s with semaphores := mapInsert id sem' s.semaphores })
    else if timeout = -1 then none
    else some (false, s)

/-- `SignalSemaphore`: a non-positive release count returns the sentinel
`-1` before the registry is even consulted; an unknown handle returns
`-1`; then the source reads `previousCount`, rejects the release with `-1`
when `previousCount + count > maxCount` (leaving every count untouched),
and otherwise posts the OS semaphore `count` times, adds `count` to the
mirror and returns `previousCount`. -/
def SignalSemaphore (s : ThreadingState) (id : Nat) (count : Int) :
    Int × ThreadingState :=
  if count ≤ 0 then (-1, s)
  else
    match mapFind id s.semaphores with
    | none => (-1, s)
    | some sem =>
      let previousCount := sem.currentCount
      if previousCount + count > sem.maxCount then (-1, s)
      else
        let sem' := { sem with osCount := sem.osCount + count.toNat,
                               currentCount := sem.currentCount + count }
        (previousCount, { s with semaphores := mapInsert id sem' s.semaphores })

/-- One observable operation of the subsystem, as a step of the global
state.  Blocking calls contribute a step only when they return. -/
inductive Step : ThreadingState → ThreadingState → Prop where
  | createThread (s : ThreadingState) : Step s (CreateThread s).2
  | joinThread (s : ThreadingState) (id : Nat) : Step s (JoinThread s id).2
  | detachThread (s : ThreadingState) (id : Nat) : Step s (DetachThread s id).2
  | createMutex (s : ThreadingState) (r : Bool) : Step s (CreateMutex s r).2
  | lockMutex (s : ThreadingState) (id : Nat) (t : Int) (p : Bool × ThreadingState)
      (h : LockMutex s id t = some p) : Step s p.2
  | unlockMutex (s : ThreadingState) (id : Nat) : Step s (UnlockMutex s id).2
  | createSemaphore (s : ThreadingState) (i m : Int) : Step s (CreateSemaphore s i m).2
  | waitSemaphore (s : ThreadingState) (id : Nat) (t : Int) (p : Bool × ThreadingState)
      (h : WaitSemaphore s id t = some p) : Step s p.2
  | signalSemaphore (s : ThreadingState) (id : Nat) (c : Int) : Step s (SignalSemaphore s id c).2

/-- `StepsN k s t`: `t` is reached from `s` by exactly `k` operations. -/
inductive StepsN : Nat → ThreadingState → ThreadingState → Prop where
  | zero (s : ThreadingState) : StepsN 0 s s
  | tail {k : Nat} {s t u : ThreadingState} :
      StepsN k s t → Step t u → StepsN (k + 1) s u

/-- `ReachN n s`: the state `s` is reached from process start by `n`
operations. -/
def ReachN (n : Nat) (s : ThreadingState) : Prop := StepsN n initState s

/-! ### State predicates and concrete fixture states -/

/-- Either of the three shapes a registry can take after one operation:
untouched, one entry erased, or one entry inserted. -/
def MapShape {α : Type} (old new : List (Nat × α)) : Prop :=
  new = old ∨ (∃ i, new = mapErase i old) ∨ ∃ i v, new = mapInsert i v old

/-- No registry holds two entries under the same key. -/
def NodupKeys (s : ThreadingState) : Prop :=
  (s.threads.map Prod.fst).Nodup ∧ (s.mutexes.map Prod.fst).Nodup ∧
    (s.semaphores.map Prod.fst).Nodup

/-- The invariant of a live semaphore entry: the `currentCount` mirror
agrees with the OS primitive's count and stays within `[0, maxCount]`. -/
def SemInv (sem : SemaphoreInfo) : Prop :=
  sem.currentCount = (sem.osCount : Int) ∧ 0 ≤ sem.currentCount ∧
    sem.currentCount ≤ sem.maxCount

/-- Every live semaphore entry satisfies `SemInv`. -/
def SemsOK (s : ThreadingState) : Prop := ∀ p ∈ s.semaphores, SemInv p.2

/-- Every live thread entry's id is bounded by the thread counter. -/
def ThreadIdsBounded (s : ThreadingState) : Prop :=
  ∀ p ∈ s.threads, p.1 ≤ s.threadCounter

/-- Fixture: the reachable state after `createSemaphore(3, 5)` — one live
semaphore under handle id 1 with `currentCount = 3`, `maxCount = 5`. -/
def semFixture : ThreadingState := (CreateSemaphore initState 3 5).2

/-- Fixture for the C3 trace: state after `createSemaphore(2, 5)`. -/
def c3s0 : ThreadingState := (CreateSemaphore initState 2 5).2

/-- C3 trace: state after the first successful wait. -/
def c3s1 : ThreadingState := ((WaitSemaphore c3s0 1 (-1)).getD (false, c3s0)).2

/-- C3 trace: state after the second successful wait. -/
def c3s2 : ThreadingState := ((WaitSemaphore c3s1 1 (-1)).getD (false, c3s1)).2

/-- C3 trace: state after `signalSemaphore(h, 1)`. -/
def c3s3 : ThreadingState := (SignalSemaphore c3s2 1 1).2

/-- Fixture: one thread spawned then one mutex created, from process
start; the thread and the mutex both carry handle id 1. -/
def c4state : ThreadingState := (CreateMutex (CreateThread initState).2 false).2

/-- Fixture: one spawned thread under handle id 1. -/
def c7s : ThreadingState := (CreateThread initState).2

/-- Fixture: the state after joining the only thread of `c7s`. -/
def c7joined : ThreadingState := (JoinThread c7s 1).2

/-- Fixture: the state after detaching the only thread of `c7s`. -/
def c7detached : ThreadingState := (DetachThread c7s 1).2

/-- Fixture: a state whose only mutex (handle id 1) is held by another
thread. -/
def c8held : ThreadingState := ⟨0, 1, 0, [], [(1, ⟨1, false, true⟩)], []⟩

/-! ### Registry-map lemmas -/

theorem mapFind_mapErase_self {α : Type} (k : Nat) (l : List (Nat × α)) :
    mapFind k (mapErase k l) = none := by
  induction l with
  | nil => rfl
  | cons p rest ih =>
    by_cases hp : p.1 = k
    · simpa [mapErase, hp] using ih
    · simpa [mapErase, mapFind, hp] using ih

theorem mapFind_mapErase_ne {α : Type} {k' k : Nat} (h : k' ≠ k) (l : List (Nat × α)) :
    mapFind k (mapErase k' l) = mapFind k l := by
  induction l with
  | nil => rfl
  | cons p rest ih =>
    by_cases hp : p.1 = k'
    · simpa [mapErase, mapFind, hp, h] using ih
    · simp [mapErase, mapFind, hp, ih]

theorem mapFind_mapInsert_self {α : Type} (k : Nat) (v : α) (l : List (Nat × α)) :
    mapFind k (mapInsert k v l) = some v := by
  simp [mapInsert, mapFind]

theorem mapFind_mapInsert_ne {α : Type} {k' k : Nat} (h : k' ≠ k) (v : α)
    (l : List (Nat × α)) : mapFind k (mapInsert k' v l) = mapFind k l := by
  simp [mapInsert, mapFind, h, mapFind_mapErase_ne h]

theorem mem_mapErase {α : Type} {k : Nat} {p : Nat × α} {l : List (Nat × α)}
    (h : p ∈ mapErase k l) : p ∈ l := by
  induction l with
  | nil => simp [mapErase] at h
  | cons q rest ih =>
    by_cases hq : q.1 = k
    · simp only [mapErase, if_pos hq] at h
      exact List.mem_cons_of_mem q (ih h)
    · simp only [mapErase, if_neg hq, List.mem_cons] at h
      rcases h with h | h
      · exact h ▸ List.mem_cons_self q rest
      · exact List.mem_cons_of_mem q (ih h)

theorem mem_mapInsert {α : Type} {k : Nat} {v : α} {p : Nat × α} {l : List (Nat × α)}
    (h : p ∈ mapInsert k v l) : p = (k, v) ∨ p ∈ l := by
  simp only [mapInsert, List.mem_cons] at h
  exact h.imp id mem_mapErase

theorem key_not_mem_mapErase {α : Type} (k : Nat) (l : List (Nat × α)) :
    k ∉ (mapErase k l).map Prod.fst := by
  induction l with
  | nil => simp [mapErase]
  | cons p rest ih =>
    by_cases hp : p.1 = k
    · simpa [mapErase, hp] using ih
    · simp only [mapErase, if_neg hp, List.map_cons, List.mem_cons]
      intro h
      rcases h with h | h
      · exact hp h.symm
      · exact ih h

theorem nodup_keys_mapErase {α : Type} {k : Nat} {l : List (Nat × α)}
    (h : (l.map Prod.fst).Nodup) : ((mapErase k l).map Prod.fst).Nodup := by
  induction l with
  | nil => simp [mapErase]
  | cons p rest ih =>
    simp only [List.map_cons, List.nodup_cons] at h
    by_cases hp : p.1 = k
    · simpa [mapErase, hp] using ih h.2
    · simp only [mapErase, if_neg hp, List.map_cons, List.nodup_cons]
      refine ⟨fun hmem => h.1 ?_, ih h.2⟩
      rcases List.mem_map.mp hmem with ⟨q, hq, hqk⟩
      exact hqk ▸ List.mem_map_of_mem Prod.fst (mem_mapErase hq)

theorem nodup_keys_mapInsert {α : Type} {k : Nat} {v : α} {l : List (Nat × α)}
    (h : (l.map Prod.fst).Nodup) : ((mapInsert k v l).map Prod.fst).Nodup := by
  simp only [mapInsert, List.map_cons, List.nodup_cons]
  exact ⟨key_not_mem_mapErase k l, nodup_keys_mapErase h⟩

theorem mapFind_eq_some_mem {α : Type} {k : Nat} {v : α} {l : List (Nat × α)}
    (h : mapFind k l = some v) : (k, v) ∈ l := by
  induction l with
  | nil => simp [mapFind] at h
  | cons p rest ih =>
    by_cases hp : p.1 = k
    · simp only [mapFind, if_pos hp] at h
      obtain ⟨a, b⟩ := p
      obtain rfl := hp
      obtain rfl := Option.some.inj h
      exact List.mem_cons_self _ _
    · simp only [mapFind, if_neg hp] at h
      exact List.mem_cons_of_mem p (ih h)

/-! ### Characterizations of the operations -/

theorem LockMutex_some {s : ThreadingState} {id : Nat} {t : Int}
    {p : Bool × ThreadingState} (h : LockMutex s id t = some p) :
    p.2 = s ∨ ∃ m, mapFind id s.mutexes = some m ∧ m.locked = false ∧
      p = (true, { s with mutexes := mapInsert id { m with locked := true } s.mutexes }) := by
  rcases hf : mapFind id s.mutexes with _ | m
  · simp only [LockMutex, hf, Option.some.injEq] at h
    exact Or.inl (by rw [← h])
  · simp only [LockMutex, hf] at h
    by_cases hl : m.locked
    · by_cases ht : t = -1
      · simp [hl, ht] at h
      · simp only [hl, if_pos, if_neg ht, Option.some.injEq] at h
        exact Or.inl (by rw [← h])
    · simp only [hl, Bool.false_eq_true, if_neg, not_false_eq_true,
        Option.some.injEq] at h
      exact Or.inr ⟨m, rfl, by simpa using hl, h.symm⟩

theorem WaitSemaphore_some {s : ThreadingState} {id : Nat} {t : Int}
    {p : Bool × ThreadingState} (h : WaitSemaphore s id t = some p) :
    p.2 = s ∨ ∃ sem, mapFind id s.semaphores = some sem ∧ 0 < sem.osCount ∧
      p = (true, { s with semaphores := mapInsert id { sem with osCount := sem.osCount - 1, currentCount := sem.currentCount - 1 } s.semaphores }) := by
  rcases hf : mapFind id s.semaphores with _ | sem
  · simp only [WaitSemaphore, hf, Option.some.injEq] at h
    exact Or.inl (by rw [← h])
  · simp only [WaitSemaphore, hf] at h
    by_cases hc : 0 < sem.osCount
    · simp only [hc, if_pos, Option.some.injEq] at h
      exact Or.inr ⟨sem, rfl, hc, h.symm⟩
    · by_cases ht : t = -1
      · simp [hc, ht] at h
      · simp only [hc, if_neg ht, if_neg, not_false_eq_true, Option.some.injEq] at h
        exact Or.inl (by rw [← h])

theorem SignalSemaphore_cases (s : ThreadingState) (id : Nat) (c : Int) :
    SignalSemaphore s id c = (-1, s) ∨
    ∃ sem, mapFind id s.semaphores = some sem ∧ 0 < c ∧
      sem.currentCount + c ≤ sem.maxCount ∧
      SignalSemaphore s id c = (sem.currentCount,
        { s with semaphores := mapInsert id { sem with osCount := sem.osCount + c.toNat, currentCount := sem.currentCount + c } s.semaphores }) := by
  by_cases hc : c ≤ 0
  · exact Or.inl (by simp [SignalSemaphore, hc])
  · rcases hf : mapFind id s.semaphores with _ | sem
    · exact Or.inl (by simp [SignalSemaphore, hc, hf])
    · by_cases hov : sem.currentCount + c > sem.maxCount
      · exact Or.inl (by simp [SignalSemaphore, hc, hf, hov])
      · exact Or.inr ⟨sem, rfl, by omega, by omega,
          by simp [SignalSemaphore, hc, hf, hov]⟩

theorem CreateSemaphore_cases (s : ThreadingState) (i m : Int) :
    CreateSemaphore s i m = (.error .invalidParams, s) ∨
    (0 ≤ i ∧ 0 < m ∧ i ≤ m ∧
      CreateSemaphore s i m = (.ok (nextHandle s.semaphoreCounter),
        { s with semaphoreCounter := nextHandle s.semaphoreCounter,
                 semaphores := mapInsert (nextHandle s.semaphoreCounter)
                   ⟨nextHandle s.semaphoreCounter, m, i, i.toNat⟩ s.semaphores })) := by
  by_cases hv : i < 0 ∨ m ≤ 0 ∨ i > m
  · exact Or.inl (by simp [CreateSemaphore, hv])
  · exact Or.inr ⟨by omega, by omega, by omega, by simp [CreateSemaphore, hv]⟩

/-! ### Effect of a step on the registries -/

theorem mapShape_refl {α : Type} (l : List (Nat × α)) : MapShape l l := Or.inl rfl

theorem step_shapes {s s' : ThreadingState} (h : Step s s') :
    MapShape s.threads s'.threads ∧ MapShape s.mutexes s'.mutexes ∧
      MapShape s.semaphores s'.semaphores := by
  cases h with
  | createThread =>
    exact ⟨Or.inr (Or.inr ⟨_, _, rfl⟩), mapShape_refl _, mapShape_refl _⟩
  | joinThread id =>
    rcases hf : mapFind id s.threads with _ | t <;>
      simp only [JoinThread, hf] <;>
      exact ⟨by first | exact mapShape_refl _ | exact Or.inr (Or.inl ⟨id, rfl⟩),
        mapShape_refl _, mapShape_refl _⟩
  | detachThread id =>
    rcases hf : mapFind id s.threads with _ | t <;>
      simp only [DetachThread, hf] <;>
      exact ⟨by first | exact mapShape_refl _ | exact Or.inr (Or.inl ⟨id, rfl⟩),
        mapShape_refl _, mapShape_refl _⟩
  | createMutex r =>
    exact ⟨mapShape_refl _, Or.inr (Or.inr ⟨_, _, rfl⟩), mapShape_refl _⟩
  | lockMutex id t p h =>
    rcases hf : mapFind id s.mutexes with _ | m
    · simp only [LockMutex, hf, Option.some.injEq] at h
      rw [← h]
      exact ⟨mapShape_refl _, mapShape_refl _, mapShape_refl _⟩
    · simp only [LockMutex, hf] at h
      by_cases hl : m.locked
      · by_cases ht : t = -1
        · simp [hl, ht] at h
        · simp only [hl, if_pos, if_neg ht, Option.some.injEq] at h
          rw [← h]
          exact ⟨mapShape_refl _, mapShape_refl _, mapShape_refl _⟩
      · simp only [hl, Bool.false_eq_true, if_neg, not_false_eq_true,
          Option.some.injEq] at h
        rw [← h]
        exact ⟨mapShape_refl _, Or.inr (Or.inr ⟨_, _, rfl⟩), mapShape_refl _⟩
  | unlockMutex id =>
    rcases hf : mapFind id s.mutexes with _ | m <;>
      simp only [UnlockMutex, hf] <;>
      exact ⟨mapShape_refl _,
        by first | exact mapShape_refl _ | exact Or.inr (Or.inr ⟨_, _, rfl⟩),
        mapShape_refl _⟩
  | createSemaphore i m =>
    by_cases hv : i < 0 ∨ m ≤ 0 ∨ i > m <;>
      simp only [CreateSemaphore, hv, if_pos, if_neg, not_false_eq_true] <;>
      exact ⟨mapShape_refl _, mapShape_refl _,
        by first | exact mapShape_refl _ | exact Or.inr (Or.inr ⟨_, _, rfl⟩)⟩
  | waitSemaphore id t p h =>
    rcases hf : mapFind id s.semaphores with _ | sem
    · simp only [WaitSemaphore, hf, Option.some.injEq] at h
      rw [← h]
      exact ⟨mapShape_refl _, mapShape_refl _, mapShape_refl _⟩
    · simp only [WaitSemaphore, hf] at h
      by_cases hc : 0 < sem.osCount
      · simp only [hc, if_pos, Option.some.injEq] at h
        rw [← h]
        exact ⟨mapShape_refl _, mapShape_refl _, Or.inr (Or.inr ⟨_, _, rfl⟩)⟩
      · by_cases ht : t = -1
        · simp [hc, ht] at h
        · simp only [hc, if_neg ht, if_neg, not_false_eq_true,
            Option.some.injEq] at h
          rw [← h]
          exact ⟨mapShape_refl _, mapShape_refl _, mapShape_refl _⟩
  | signalSemaphore id c =>
    by_cases hc : c ≤ 0
    · simp only [SignalSemaphore, hc, if_pos]
      exact ⟨mapShape_refl _, mapShape_refl _, mapShape_refl _⟩
    · rcases hf : mapFind id s.semaphores with _ | sem <;>
        simp only [SignalSemaphore, hc, if_neg, hf, not_false_eq_true]
      · exact ⟨mapShape_refl _, mapShape_refl _, mapShape_refl _⟩
      · by_cases hov : sem.currentCount + c > sem.maxCount <;>
          simp only [hov, if_pos, if_neg, not_false_eq_true] <;>
          exact ⟨mapShape_refl _, mapShape_refl _,
            by first | exact mapShape_refl _ | exact Or.inr (Or.inr ⟨_, _, rfl⟩)⟩

/-- Effect of one operation on the thread registry and its counter:
only `CreateThread` inserts (under the freshly incremented counter), only
`JoinThread` and `DetachThread` erase, and no other operation touches
either the map or `threadCounter`. -/
theorem step_threads {s s' : ThreadingState} (h : Step s s') :
    (s'.threadCounter = s.threadCounter ∧
       (s'.threads = s.threads ∨ ∃ i, s'.threads = mapErase i s.threads)) ∨
    (s'.threadCounter = nextHandle s.threadCounter ∧
       s'.threads = mapInsert (nextHandle s.threadCounter)
         ⟨nextHandle s.threadCounter, true, 0, true⟩ s.threads) := by
  cases h with
  | createThread => exact Or.inr ⟨rfl, rfl⟩
  | joinThread id =>
    rcases hf : mapFind id s.threads with _ | t <;> simp only [JoinThread, hf]
    · exact Or.inl ⟨by trivial, Or.inl (by trivial)⟩
    · exact Or.inl ⟨by trivial, Or.inr ⟨id, by trivial⟩⟩
  | detachThread id =>
    rcases hf : mapFind id s.threads with _ | t <;> simp only [DetachThread, hf]
    · exact Or.inl ⟨by trivial, Or.inl (by trivial)⟩
    · exact Or.inl ⟨by trivial, Or.inr ⟨id, by trivial⟩⟩
  | createMutex r => exact Or.inl ⟨by trivial, Or.inl (by trivial)⟩
  | lockMutex id t p h =>
    rcases LockMutex_some h with h2 | ⟨m, _, _, h2⟩
    · rw [h2]; exact Or.inl ⟨by trivial, Or.inl (by trivial)⟩
    · rw [h2]; exact Or.inl ⟨by trivial, Or.inl (by trivial)⟩
  | unlockMutex id =>
    rcases hf : mapFind id s.mutexes with _ | m <;> simp only [UnlockMutex, hf] <;>
      exact Or.inl ⟨by trivial, Or.inl (by trivial)⟩
  | createSemaphore i m =>
    rcases CreateSemaphore_cases s i m with h2 | ⟨_, _, _, h2⟩ <;>
      · rw [show (CreateSemaphore s i m).2 = _ from congrArg Prod.snd h2]
        exact Or.inl ⟨by trivial, Or.inl (by trivial)⟩
  | waitSemaphore id t p h =>
    rcases WaitSemaphore_some h with h2 | ⟨sem, _, _, h2⟩
    · rw [h2]; exact Or.inl ⟨by trivial, Or.inl (by trivial)⟩
    · rw [h2]; exact Or.inl ⟨by trivial, Or.inl (by trivial)⟩
  | signalSemaphore id c =>
    rcases SignalSemaphore_cases s id c with h2 | ⟨sem, _, _, _, h2⟩ <;>
      · rw [show (SignalSemaphore s id c).2 = _ from congrArg Prod.snd h2]
        exact Or.inl ⟨by trivial, Or.inl (by trivial)⟩

/-- Effect of one operation on the semaphore registry: untouched, a
validated creation, a successful wait, or a bounds-checked signal. -/
theorem step_sems {s s' : ThreadingState} (h : Step s s') :
    s'.semaphores = s.semaphores ∨
    (∃ i m : Int, 0 ≤ i ∧ 0 < m ∧ i ≤ m ∧
       s'.semaphores = mapInsert (nextHandle s.semaphoreCounter)
         ⟨nextHandle s.semaphoreCounter, m, i, i.toNat⟩ s.semaphores) ∨
    (∃ id sem, mapFind id s.semaphores = some sem ∧ 0 < sem.osCount ∧
       s'.semaphores = mapInsert id { sem with osCount := sem.osCount - 1, currentCount := sem.currentCount - 1 } s.semaphores) ∨
    (∃ id sem c, mapFind id s.semaphores = some sem ∧ (0 : Int) < c ∧
       sem.currentCount + c ≤ sem.maxCount ∧
       s'.semaphores = mapInsert id { sem with osCount := sem.osCount + c.toNat, currentCount := sem.currentCount + c } s.semaphores) := by
  cases h with
  | createThread => exact Or.inl (by trivial)
  | joinThread id =>
    rcases hf : mapFind id s.threads with _ | t <;> simp only [JoinThread, hf] <;>
      exact Or.inl (by trivial)
  | detachThread id =>
    rcases hf : mapFind id s.threads with _ | t <;> simp only [DetachThread, hf] <;>
      exact Or.inl (by trivial)
  | createMutex r => exact Or.inl (by trivial)
  | lockMutex id t p h =>
    rcases LockMutex_some h with h2 | ⟨m, _, _, h2⟩ <;> rw [h2] <;> exact Or.inl (by trivial)
  | unlockMutex id =>
    rcases hf : mapFind id s.mutexes with _ | m <;> simp only [UnlockMutex, hf] <;>
      exact Or.inl (by trivial)
  | createSemaphore i m =>
    rcases CreateSemaphore_cases s i m with h2 | ⟨h0, h1, h3, h2⟩
    · rw [show (CreateSemaphore s i m).2 = _ from congrArg Prod.snd h2]
      exact Or.inl (by trivial)
    · rw [show (CreateSemaphore s i m).2 = _ from congrArg Prod.snd h2]
      exact Or.inr (Or.inl ⟨i, m, h0, h1, h3, rfl⟩)
  | waitSemaphore id t p h =>
    rcases WaitSemaphore_some h with h2 | ⟨sem, hf, hc, h2⟩
    · rw [h2]; exact Or.inl (by trivial)
    · rw [h2]; exact Or.inr (Or.inr (Or.inl ⟨id, sem, hf, hc, rfl⟩))
  | signalSemaphore id c =>
    rcases SignalSemaphore_cases s id c with h2 | ⟨sem, hf, hc, hov, h2⟩
    · rw [show (SignalSemaphore s id c).2 = _ from congrArg Prod.snd h2]
      exact Or.inl (by trivial)
    · rw [show (SignalSemaphore s id c).2 = _ from congrArg Prod.snd h2]
      exact Or.inr (Or.inr (Or.inr ⟨id, sem, c, hf, hc, hov, rfl⟩))

/-! ### Invariants of reachable states -/

theorem shape_nodup {α : Type} {old new : List (Nat × α)} (h : MapShape old new)
    (hn : (old.map Prod.fst).Nodup) : (new.map Prod.fst).Nodup := by
  rcases h with rfl | ⟨i, rfl⟩ | ⟨i, v, rfl⟩
  · exact hn
  · exact nodup_keys_mapErase hn
  · exact nodup_keys_mapInsert hn

theorem nodupKeys_step {s s' : ThreadingState} (h : Step s s') (hs : NodupKeys s) :
    NodupKeys s' := by
  obtain ⟨h1, h2, h3⟩ := step_shapes h
  exact ⟨shape_nodup h1 hs.1, shape_nodup h2 hs.2.1, shape_nodup h3 hs.2.2⟩

theorem nodupKeys_stepsN {k : Nat} {s t : ThreadingState} (h : StepsN k s t)
    (hs : NodupKeys s) : NodupKeys t := by
  induction h with
  | zero s => exact hs
  | tail h1 h2 ih => exact nodupKeys_step h2 (ih hs)

theorem nodupKeys_reach {n : Nat} {s : ThreadingState} (h : ReachN n s) :
    NodupKeys s :=
  nodupKeys_stepsN h ⟨List.nodup_nil, List.nodup_nil, List.nodup_nil⟩

theorem semsOK_step {s s' : ThreadingState} (h : Step s s') (hs : SemsOK s) :
    SemsOK s' := by
  rcases step_sems h with heq | ⟨i, m, h0, h1, h3, heq⟩ |
    ⟨id, sem, hf, hc, heq⟩ | ⟨id, sem, c, hf, hc, hov, heq⟩ <;>
    intro p hp <;> rw [heq] at hp
  · exact hs p hp
  · rcases mem_mapInsert hp with rfl | hp
    · exact ⟨by simp [Int.toNat_of_nonneg h0], h0, h3⟩
    · exact hs p hp
  · rcases mem_mapInsert hp with rfl | hp
    · have hmem := hs _ (mapFind_eq_some_mem hf)
      have e1 : sem.currentCount = (sem.osCount : Int) := hmem.1
      have e2 : 0 ≤ sem.currentCount := hmem.2.1
      have e3 : sem.currentCount ≤ sem.maxCount := hmem.2.2
      refine ⟨?_, ?_, ?_⟩ <;> dsimp only <;> omega
    · exact hs p hp
  · rcases mem_mapInsert hp with rfl | hp
    · have hmem := hs _ (mapFind_eq_some_mem hf)
      have e1 : sem.currentCount = (sem.osCount : Int) := hmem.1
      have e2 : 0 ≤ sem.currentCount := hmem.2.1
      have e3 : sem.currentCount ≤ sem.maxCount := hmem.2.2
      refine ⟨?_, ?_, ?_⟩ <;> dsimp only <;> omega
    · exact hs p hp

theorem semsOK_stepsN {k : Nat} {s t : ThreadingState} (h : StepsN k s t)
    (hs : SemsOK s) : SemsOK t := by
  induction h with
  | zero s => exact hs
  | tail h1 h2 ih => exact semsOK_step h2 (ih hs)

theorem semsOK_reach {n : Nat} {s : ThreadingState} (h : ReachN n s) : SemsOK s :=
  semsOK_stepsN h (by intro p hp; simp [initState] at hp)

theorem nextHandle_eq_succ (c : Nat) (h : c + 1 < U64) : nextHandle c = c + 1 :=
  Nat.mod_eq_of_lt h

theorem nextHandle_le_succ (c : Nat) : nextHandle c ≤ c + 1 :=
  Nat.le_of_lt_succ (Nat.lt_succ_of_le (Nat.mod_le _ _))

theorem ids_bounded_stepsN {k : Nat} {s t : ThreadingState} (h : StepsN k s t) :
    s.threadCounter + k < U64 → ThreadIdsBounded s →
    ThreadIdsBounded t ∧ t.threadCounter ≤ s.threadCounter + k ∧
      s.threadCounter ≤ t.threadCounter := by
  induction h with
  | zero s => exact fun _ hb => ⟨hb, Nat.le_refl _, Nat.le_refl _⟩
  | @tail k1 s1 t1 u1 h1 h2 ih =>
    intro hbound hb
    obtain ⟨hb', hc', hc''⟩ := ih (by omega) hb
    rcases step_threads h2 with ⟨hceq, hth⟩ | ⟨hceq, hth⟩
    · refine ⟨?_, by omega, by omega⟩
      intro p hp
      rw [hceq]
      rcases hth with heq | ⟨i, heq⟩
      · rw [heq] at hp; exact hb' p hp
      · rw [heq] at hp; exact hb' p (mem_mapErase hp)
    · have hnw : nextHandle t1.threadCounter = t1.threadCounter + 1 :=
        nextHandle_eq_succ _ (by omega)
      refine ⟨?_, by omega, by omega⟩
      intro p hp
      rw [hth] at hp
      rcases mem_mapInsert hp with rfl | hp
      · simp [hceq]
      · rw [hceq, hnw]
        have := hb' p hp
        omega

theorem ids_bounded_reach {n : Nat} {s : ThreadingState} (h : ReachN n s)
    (hb : n < U64) : ThreadIdsBounded s ∧ s.threadCounter ≤ n := by
  obtain ⟨h1, h2, h3⟩ := ids_bounded_stepsN h (by simpa [initState] using hb)
    (by intro p hp; simp [initState] at hp)
  exact ⟨h1, by simpa [initState] using h2⟩

/-- Once a thread handle is absent from the registry and below the
counter, it stays absent along any further execution that does not wrap
the 64-bit counter. -/
theorem removed_stays {k : Nat} {s t : ThreadingState} (h : StepsN k s t) :
    ∀ {id : Nat}, s.threadCounter + k < U64 → id ≤ s.threadCounter →
    mapFind id s.threads = none →
    mapFind id t.threads = none ∧ id ≤ t.threadCounter ∧
      t.threadCounter ≤ s.threadCounter + k := by
  induction h with
  | zero s => exact fun hb hid hn => ⟨hn, hid, Nat.le_refl _⟩
  | @tail k1 s1 t1 u1 h1 h2 ih =>
    intro id hbound hid hn
    obtain ⟨hn', hid', hc'⟩ := ih (by omega) hid hn
    rcases step_threads h2 with ⟨hceq, hth⟩ | ⟨hceq, hth⟩
    · refine ⟨?_, by omega, by omega⟩
      rcases hth with heq | ⟨i, heq⟩
      · rw [heq]; exact hn'
      · rw [heq]
        by_cases hi : i = id
        · subst hi; exact mapFind_mapErase_self i _
        · rw [mapFind_mapErase_ne hi]; exact hn'
    · have hnw : nextHandle t1.threadCounter = t1.threadCounter + 1 :=
        nextHandle_eq_succ _ (by omega)
      refine ⟨?_, by omega, by omega⟩
      rw [hth, mapFind_mapInsert_ne (by omega)]
      exact hn'

/-! ### Join and detach characterizations -/

theorem JoinThread_notFound {s : ThreadingState} {id : Nat}
    (h : mapFind id s.threads = none) : JoinThread s id = (.error .notFound, s) := by
  simp [JoinThread, h]

theorem DetachThread_notFound {s : ThreadingState} {id : Nat}
    (h : mapFind id s.threads = none) : DetachThread s id = (false, s) := by
  simp [DetachThread, h]

theorem JoinThread_ok {s s₁ : ThreadingState} {id : Nat} {r : Int}
    (h : JoinThread s id = (.ok r, s₁)) :
    (∃ t, mapFind id s.threads = some t) ∧
      s₁ = { s with threads := mapErase id s.threads } := by
  rcases hf : mapFind id s.threads with _ | t
  · rw [JoinThread_notFound hf] at h
    exact absurd (congrArg Prod.fst h) (by simp)
  · simp only [JoinThread, hf, Prod.mk.injEq] at h
    exact ⟨⟨t, rfl⟩, h.2.symm⟩

theorem DetachThread_true {s s₁ : ThreadingState} {id : Nat}
    (h : DetachThread s id = (true, s₁)) :
    (∃ t, mapFind id s.threads = some t) ∧
      s₁ = { s with threads := mapErase id s.threads } := by
  rcases hf : mapFind id s.threads with _ | t
  · rw [DetachThread_notFound hf] at h
    exact absurd (congrArg Prod.fst h) (by simp)
  · simp only [DetachThread, hf, Prod.mk.injEq] at h
    exact ⟨⟨t, rfl⟩, h.2.symm⟩

/-! ### The claims -/

/-- C1: `SignalSemaphore` verifies `currentCount + count <= maxCount`
before releasing anything: when the check fails it returns the error
sentinel with the whole state — the OS count and the `currentCount`
mirror — unchanged (the release is entirely rejected), and when the
check passes it returns the `currentCount` value held immediately prior
to the release. -/
theorem C1_signal_overflow_check (s : ThreadingState) (id : Nat) (c : Int)
    (sem : SemaphoreInfo) (hf : mapFind id s.semaphores = some sem) (hc : 0 < c) :
    (sem.currentCount + c > sem.maxCount → SignalSemaphore s id c = (-1, s)) ∧
    (sem.currentCount + c ≤ sem.maxCount →
      (SignalSemaphore s id c).1 = sem.currentCount) := by
  have hcn : ¬ c ≤ 0 := by omega
  constructor
  · intro hov
    simp [SignalSemaphore, hcn, hf, hov]
  · intro hle
    have hnov : ¬ sem.maxCount < sem.currentCount + c := by omega
    simp [SignalSemaphore, hcn, hf, hnov]

/-- Witness for C1 at the `semFixture` state (`currentCount = 3`,
`maxCount = 5`): releasing 4 overflows and is rejected with the state
unchanged; releasing 2 succeeds and returns the prior count 3. -/
theorem C1_signal_overflow_check_witness :
    SignalSemaphore semFixture 1 4 = (-1, semFixture) ∧
      (SignalSemaphore semFixture 1 2).1 = 3 :=
  ⟨(C1_signal_overflow_check semFixture 1 4 ⟨1, 5, 3, 3⟩ (by decide) (by decide)).1
      (by decide),
   (C1_signal_overflow_check semFixture 1 2 ⟨1, 5, 3, 3⟩ (by decide) (by decide)).2
      (by decide)⟩

/-- C2: in every reachable state, every live semaphore satisfies
`0 <= currentCount <= maxCount`: the bound holds at creation (the
parameters are validated) and is preserved by every wait (which
decrements only on success) and every signal (whose precondition check
runs before the OS primitive is released). -/
theorem C2_current_count_bounded {n : Nat} {s : ThreadingState} (h : ReachN n s) :
    ∀ p ∈ s.semaphores, 0 ≤ p.2.currentCount ∧ p.2.currentCount ≤ p.2.maxCount := by
  intro p hp
  obtain ⟨e1, e2, e3⟩ := semsOK_reach h p hp
  exact ⟨e2, e3⟩

/-- Witness for C2 at the reachable state `semFixture` and its only live
semaphore entry. -/
theorem C2_current_count_bounded_witness :
    ((1, (⟨1, 5, 3, 3⟩ : SemaphoreInfo)) ∈ semFixture.semaphores) ∧
      0 ≤ (⟨1, 5, 3, 3⟩ : SemaphoreInfo).currentCount ∧
      (⟨1, 5, 3, 3⟩ : SemaphoreInfo).currentCount ≤ (⟨1, 5, 3, 3⟩ : SemaphoreInfo).maxCount :=
  ⟨by decide,
   C2_current_count_bounded
     (StepsN.tail (StepsN.zero initState) (Step.createSemaphore initState 3 5))
     (1, ⟨1, 5, 3, 3⟩) (by decide)⟩

/-- C3: after `createSemaphore(2, 5)` the first two waits succeed, a
third immediate wait with timeout `0` returns `false`, and after one
`signalSemaphore` a further wait succeeds again. -/
theorem C3_semaphore_trace :
    (CreateSemaphore initState 2 5).1 = .ok 1 ∧
    WaitSemaphore c3s0 1 (-1) = some (true, c3s1) ∧
    WaitSemaphore c3s1 1 (-1) = some (true, c3s2) ∧
    WaitSemaphore c3s2 1 0 = some (false, c3s2) ∧
    (SignalSemaphore c3s2 1 1).1 = 0 ∧
    (WaitSemaphore c3s3 1 (-1)).map (fun p => p.1) = some true := by
  decide

/-- C4 counterexample: handle ids are issued by three independent
per-kind counters, so resources of different kinds can share an id.  In
the reachable state `c4state` (one `createThread`, then one
`createMutex`) the live thread entry and the live mutex entry both carry
handle id 1. -/
theorem C4_cross_kind_handle_collision :
    ReachN 2 c4state ∧ (mapFind 1 c4state.threads).isSome = true ∧
      (mapFind 1 c4state.mutexes).isSome = true :=
  ⟨StepsN.tail (StepsN.tail (StepsN.zero initState) (Step.createThread initState))
      (Step.createMutex (CreateThread initState).2 false),
   by decide, by decide⟩

/-- C4 (amended): within each kind, no two live registry entries ever
share a handle id — in every reachable state the key lists of the thread,
mutex and semaphore registries are duplicate-free.  Across kinds, ids may
coincide, since each kind draws from its own counter. -/
theorem C4_same_kind_ids_unique {n : Nat} {s : ThreadingState} (h : ReachN n s) :
    (s.threads.map Prod.fst).Nodup ∧ (s.mutexes.map Prod.fst).Nodup ∧
      (s.semaphores.map Prod.fst).Nodup :=
  nodupKeys_reach h

/-- Witness for the amended C4 at the reachable state `c4state`. -/
theorem C4_same_kind_ids_unique_witness :
    (c4state.threads.map Prod.fst).Nodup ∧ (c4state.mutexes.map Prod.fst).Nodup ∧
      (c4state.semaphores.map Prod.fst).Nodup :=
  C4_same_kind_ids_unique
    (StepsN.tail (StepsN.tail (StepsN.zero initState) (Step.createThread initState))
      (Step.createMutex (CreateThread initState).2 false))

/-- C5: the handle allocation step `++counter` returns a strictly larger
value than the previous counter on every call, and never the reserved id
0, for every counter value below the 64-bit wrap (the spec sets
exhaustion of the 64-bit space aside as not needing handling). -/
theorem C5_next_handle_increasing (c : Nat) (h : c + 1 < U64) :
    c < nextHandle c ∧ nextHandle c ≠ 0 := by
  rw [nextHandle_eq_succ c h]
  omega

/-- Witness for C5 at counter value 41. -/
theorem C5_next_handle_increasing_witness :
    41 < nextHandle 41 ∧ nextHandle 41 ≠ 0 :=
  C5_next_handle_increasing 41 (by decide)

/-- C6: once `JoinThread` or `DetachThread` has successfully consumed a
handle, the handle never resolves again along any further execution that
stays below the 64-bit counter wrap: the registry lookup stays `none`, a
further join yields the invalid-handle (`notFound`) error and a further
detach returns `false`. -/
theorem C6_consumed_handle_stays_dead {n : Nat} {s : ThreadingState}
    (h : ReachN n s) :
    (∀ k id r s₁ s₂, n + k < U64 → JoinThread s id = (.ok r, s₁) →
       StepsN k s₁ s₂ →
       mapFind id s₂.threads = none ∧ (JoinThread s₂ id).1 = .error .notFound ∧
         (DetachThread s₂ id).1 = false) ∧
    (∀ k id s₁ s₂, n + k < U64 → DetachThread s id = (true, s₁) →
       StepsN k s₁ s₂ →
       mapFind id s₂.threads = none ∧ (JoinThread s₂ id).1 = .error .notFound ∧
         (DetachThread s₂ id).1 = false) := by
  have main : ∀ k id s₁ s₂, n + k < U64 →
      (∃ t, mapFind id s.threads = some t) →
      s₁ = { s with threads := mapErase id s.threads } → StepsN k s₁ s₂ →
      mapFind id s₂.threads = none ∧ (JoinThread s₂ id).1 = .error .notFound ∧
        (DetachThread s₂ id).1 = false := by
    rintro k id s₁ s₂ hbound ⟨t, hf⟩ hs₁ hsteps
    obtain ⟨hbnd, hcn⟩ := ids_bounded_reach h (by omega)
    have hid : id ≤ s.threadCounter := hbnd _ (mapFind_eq_some_mem hf)
    subst hs₁
    have hcr : ({ s with threads := mapErase id s.threads } : ThreadingState).threadCounter
        = s.threadCounter := rfl
    have h1 : mapFind id ({ s with threads := mapErase id s.threads } : ThreadingState).threads
        = none := mapFind_mapErase_self id s.threads
    obtain ⟨h2, -, -⟩ := removed_stays hsteps (by rw [hcr]; omega) (by rw [hcr]; exact hid) h1
    exact ⟨h2, by rw [JoinThread_notFound h2], by rw [DetachThread_notFound h2]⟩
  constructor
  · intro k id r s₁ s₂ hbound hj hsteps
    obtain ⟨he, hs₁⟩ := JoinThread_ok hj
    exact main k id s₁ s₂ hbound he hs₁ hsteps
  · intro k id s₁ s₂ hbound hd hsteps
    obtain ⟨he, hs₁⟩ := DetachThread_true hd
    exact main k id s₁ s₂ hbound he hs₁ hsteps

/-- Witness for C6: spawn one thread, join it; afterwards the handle no
longer resolves, a second join reports the invalid handle and a detach
reports `false`. -/
theorem C6_consumed_handle_stays_dead_witness :
    mapFind 1 c7joined.threads = none ∧
      (JoinThread c7joined 1).1 = .error .notFound ∧
      (DetachThread c7joined 1).1 = false :=
  (C6_consumed_handle_stays_dead
      (StepsN.tail (StepsN.zero initState) (Step.createThread initState))).1
    0 1 0 c7joined c7joined (by decide) (by decide) (StepsN.zero c7joined)

/-- C7 counterexample: joining the already-joined handle 1 of `c7s`
yields the same invalid-handle outcome (`notFound`) as an unknown handle,
not `alreadyConsumed`; joining after a detach likewise yields `notFound`,
not `notJoinable` — the registry entry is erased by join/detach, so no
distinct error is ever produced. -/
theorem C7_no_distinct_consumed_errors :
    (JoinThread c7s 1).1 = .ok 0 ∧
    (JoinThread c7joined 1).1 = .error .notFound ∧
    (JoinThread c7joined 1).1 ≠ .error .alreadyConsumed ∧
    (DetachThread c7s 1).1 = true ∧
    (JoinThread c7detached 1).1 = .error .notFound ∧
    (JoinThread c7detached 1).1 ≠ .error .notJoinable := by
  decide

/-- C7 (amended): joining a handle that was already joined, and joining a
handle that was detached, both fail with the same invalid-handle
(`notFound`) error that an unknown handle produces; the code does not
report distinct `alreadyConsumed` / `notJoinable` errors because the
registry entry is erased when join or detach succeeds. -/
theorem C7_joined_or_detached_then_notFound (s s₁ : ThreadingState) (id : Nat) :
    (∀ r, JoinThread s id = (.ok r, s₁) → (JoinThread s₁ id).1 = .error .notFound) ∧
    (DetachThread s id = (true, s₁) → (JoinThread s₁ id).1 = .error .notFound) := by
  constructor
  · intro r h
    obtain ⟨-, hs₁⟩ := JoinThread_ok h
    have hnone : mapFind id ({ s with threads := mapErase id s.threads } : ThreadingState).threads
        = none := mapFind_mapErase_self id s.threads
    rw [hs₁, JoinThread_notFound hnone]
  · intro h
    obtain ⟨-, hs₁⟩ := DetachThread_true h
    have hnone : mapFind id ({ s with threads := mapErase id s.threads } : ThreadingState).threads
        = none := mapFind_mapErase_self id s.threads
    rw [hs₁, JoinThread_notFound hnone]

/-- Witness for the amended C7 at the fixtures `c7joined` and
`c7detached`. -/
theorem C7_joined_or_detached_then_notFound_witness :
    (JoinThread c7joined 1).1 = .error .notFound ∧
      (JoinThread c7detached 1).1 = .error .notFound :=
  ⟨(C7_joined_or_detached_then_notFound c7s c7joined 1).1 0 (by decide),
   (C7_joined_or_detached_then_notFound c7s c7detached 1).2 (by decide)⟩

/-- C8 counterexample: in `c8held` (mutex handle 1 held by another
thread) a timed lock on handle 1 returns `false`, and a lock on the
unknown handle 2 returns exactly the same plain boolean `false` with no
distinct `notFound` error — the source returns `false` for an unknown
handle instead of raising an error. -/
theorem C8_invalid_handle_returns_false :
    LockMutex c8held 1 50 = some (false, c8held) ∧
    LockMutex c8held 2 50 = some (false, c8held) ∧
    LockMutex c8held 1 50 = LockMutex c8held 2 50 := by
  decide

/-- C8 (amended): a timed `LockMutex` that does not acquire the mutex
within the window returns `false` as a normal outcome, and `LockMutex` on
an unknown or removed handle also returns the boolean `false` — not a
distinct `notFound` error — leaving the two failure modes
indistinguishable to the caller. -/
theorem C8_timeout_and_invalid_both_false (s : ThreadingState) (id : Nat) (t : Int) :
    (∀ m, mapFind id s.mutexes = some m → m.locked = true → t ≠ -1 →
       LockMutex s id t = some (false, s)) ∧
    (mapFind id s.mutexes = none → LockMutex s id t = some (false, s)) := by
  constructor
  · intro m hf hl ht
    simp [LockMutex, hf, hl, ht]
  · intro hf
    simp [LockMutex, hf]

/-- Witness for the amended C8 at `c8held`: handle 1 (held) and handle 2
(unknown) both yield `false`. -/
theorem C8_timeout_and_invalid_both_false_witness :
    LockMutex c8held 1 50 = some (false, c8held) ∧
      LockMutex c8held 2 50 = some (false, c8held) :=
  ⟨(C8_timeout_and_invalid_both_false c8held 1 50).1 ⟨1, false, true⟩
      (by decide) (by decide) (by decide),
   (C8_timeout_and_invalid_both_false c8held 2 50).2 (by decide)⟩

/-- C9: over the spec's unsigned parameter domain, `CreateSemaphore`
fails with the validation error exactly when `maxCount = 0` or
`initialCount > maxCount`, and in the failure cases nothing is created:
the whole state — counter and registry — is left unchanged, so no handle
is issued. -/
theorem C9_create_semaphore_validation (s : ThreadingState) (i m : Int)
    (hi : 0 ≤ i) (hm : 0 ≤ m) :
    ((CreateSemaphore s i m).1 = .error .invalidParams ↔ (m = 0 ∨ i > m)) ∧
    ((m = 0 ∨ i > m) → (CreateSemaphore s i m).2 = s) := by
  by_cases hv : i < 0 ∨ m ≤ 0 ∨ i > m
  · constructor
    · simp only [CreateSemaphore, hv, if_pos]
      constructor
      · intro
        omega
      · intro
        trivial
    · intro
      simp [CreateSemaphore, hv]
  · constructor
    · simp only [CreateSemaphore, hv, if_neg, not_false_eq_true]
      constructor
      · intro he
        exact absurd he (by simp)
      · intro hcase
        exact absurd hcase (by omega)
    · intro hcase
      exact absurd hcase (by omega)

/-- Witness for C9 at `createSemaphore(6, 5)`: the call fails with the
validation error and leaves the initial state untouched. -/
theorem C9_create_semaphore_validation_witness :
    ((CreateSemaphore initState 6 5).1 = .error .invalidParams ↔
      ((5 : Int) = 0 ∨ (6 : Int) > 5)) ∧
    (CreateSemaphore initState 6 5).2 = initState :=
  ⟨(C9_create_semaphore_validation initState 6 5 (by decide) (by decide)).1,
   (C9_create_semaphore_validation initState 6 5 (by decide) (by decide)).2
     (Or.inr (by decide))⟩

/-- C10: `SignalSemaphore` rejects a non-positive release count before
the registry is consulted — for every state, with a known or an unknown
handle alike, it returns the sentinel `-1` and leaves the state
unchanged — and the other two failure causes (unknown handle, release
that would exceed `maxCount`) return the very same `-1`, so the three
failure modes are indistinguishable to the caller. -/
theorem C10_signal_failure_modes (s : ThreadingState) (id : Nat) (c : Int) :
    (c ≤ 0 → SignalSemaphore s id c = (-1, s)) ∧
    (mapFind id s.semaphores = none → SignalSemaphore s id c = (-1, s)) ∧
    (∀ sem, mapFind id s.semaphores = some sem →
       sem.currentCount + c > sem.maxCount → SignalSemaphore s id c = (-1, s)) := by
  refine ⟨fun hc => by simp [SignalSemaphore, hc], fun hf => ?_, fun sem hf hov => ?_⟩
  · by_cases hc : c ≤ 0
    · simp [SignalSemaphore, hc]
    · simp [SignalSemaphore, hc, hf]
  · by_cases hc : c ≤ 0
    · simp [SignalSemaphore, hc]
    · simp [SignalSemaphore, hc, hf, hov]

/-- Witness for C10 at `semFixture`: a zero count (with an unknown
handle), an unknown handle with a positive count, and an overflowing
release on the live semaphore all return the same sentinel with the state
unchanged. -/
theorem C10_signal_failure_modes_witness :
    SignalSemaphore semFixture 9 0 = (-1, semFixture) ∧
    SignalSemaphore semFixture 9 1 = (-1, semFixture) ∧
    SignalSemaphore semFixture 1 4 = (-1, semFixture) :=
  ⟨(C10_signal_failure_modes semFixture 9 0).1 (by decide),
   (C10_signal_failure_modes semFixture 9 1).2.1 (by decide),
   (C10_signal_failure_modes semFixture 1 4).2.2 ⟨1, 5, 3, 3⟩ (by decide) (by decide)⟩

end LLJS
